import Mathlib

/-!
Verification of the student canteen reservation service.

The embedding models the reservation controller, the canteen controller's
availability-slot calculator and the in-memory store.  JavaScript `Date`
values produced by date-fns `parse` are represented as `Option Nat` absolute
minute instants (`none` models an Invalid Date, whose numeric value NaN makes
every comparison false).  Strings stay strings so that the truthiness-based
presence checks keep their source semantics.
-/

/-- JS `s.split(sep)` over the underlying character list (the split groups,
in order, separators dropped; the empty string yields one empty group). -/
def splitChars (sep : Char) : List Char → List (List Char)
  | [] => [[]]
  | c :: cs =>
    match splitChars sep cs, c == sep with
    | groups, true => [] :: groups
    | [], false => [[c]]
    | g :: gs, false => (c :: g) :: gs

/-- Numeric value of a digit character list, most significant digit first. -/
def digitsVal (cs : List Char) : Nat :=
  cs.foldl (fun n c => n * 10 + (c.toNat - 48)) 0

/-- The JS expression `parseInt(s)` as used on time components in this code
base: reads the leading decimal digits, `none` models NaN. -/
def parseIntJS (s : String) : Option Nat :=
  match s.data.takeWhile Char.isDigit with
  | [] => none
  | ds => some (digitsVal ds)

/-- The JS expression `s.split(':')[i]`.  Indexing past the end of the array
gives `undefined`; it is modelled by `""`, which like `undefined` is unequal
to `"00"`/`"30"` and makes `parseInt` return NaN (`parseIntJS "" = none`). -/
def splitColon (s : String) (i : Nat) : String :=
  ⟨(splitChars ':' s.data).getD i []⟩

/-- Minute offset of a time string computed the way `createReservation` does
for the working-hours math: `parseInt(x.split(':')[0]) * 60 +
parseInt(x.split(':')[1])`; `none` models NaN. -/
def timeMinJS (s : String) : Option Nat :=
  match parseIntJS (splitColon s 0), parseIntJS (splitColon s 1) with
  | some h, some m => some (h * 60 + m)
  | _, _ => none

/-- Gregorian leap-year rule (date-fns works in the proleptic Gregorian
calendar). -/
def isLeap (y : Nat) : Bool :=
  y % 4 = 0 && (y % 100 ≠ 0 || y % 400 = 0)

/-- Number of days of month `m` (1-based) in year `y`. -/
def daysInMonth (y m : Nat) : Nat :=
  if m = 2 then (if isLeap y then 29 else 28)
  else if m = 4 || m = 6 || m = 9 || m = 11 then 30
  else 31

/-- Number of leap years strictly before year `y`, counting from year 0. -/
def leapsBefore (y : Nat) : Nat :=
  (y + 3) / 4 - (y + 99) / 100 + (y + 399) / 400

/-- Days contained in all years strictly before year `y`. -/
def daysBeforeYear (y : Nat) : Nat :=
  365 * y + leapsBefore y

/-- Days contained in the months of year `y` strictly before month `m`. -/
def daysBeforeMonth (y m : Nat) : Nat :=
  ((List.range (m - 1)).map (fun k => daysInMonth y (k + 1))).sum

/-- Day number of the calendar date `y-m-d`: days since 0000-01-01. -/
def dayNumber (y m d : Nat) : Nat :=
  daysBeforeYear y + daysBeforeMonth y m + (d - 1)

/-- date-fns `parse(s, 'yyyy-MM-dd', ref)` modelled as a strict parse of a
valid calendar date into its day number; `none` models Invalid Date. -/
def parseDate (s : String) : Option Nat :=
  match splitChars '-' s.data with
  | [ys, ms, ds] =>
    if ys.length = 4 ∧ ms.length = 2 ∧ ds.length = 2 ∧
        (ys ++ ms ++ ds).all Char.isDigit then
      let y := digitsVal ys
      let m := digitsVal ms
      let d := digitsVal ds
      if 1 ≤ m ∧ m ≤ 12 ∧ 1 ≤ d ∧ d ≤ daysInMonth y m then
        some (dayNumber y m d)
      else none
    else none
  | _ => none

/-- date-fns `'HH:mm'` time-of-day parse: two-digit hours 00–23 and minutes
00–59, as a minute offset in [0, 1440); `none` models Invalid Date. -/
def parseTimeHM (s : String) : Option Nat :=
  match splitChars ':' s.data with
  | [hs, ms] =>
    if hs.length = 2 ∧ ms.length = 2 ∧ (hs ++ ms).all Char.isDigit then
      let h := digitsVal hs
      let m := digitsVal ms
      if h ≤ 23 ∧ m ≤ 59 then some (h * 60 + m) else none
    else none
  | _ => none

/-- date-fns `parse(date + 'T' + time, "yyyy-MM-dd'T'HH:mm", ...)` as an
absolute instant in minutes; `none` models Invalid Date. -/
def parseDateTime (date time : String) : Option Nat :=
  match parseDate date, parseTimeHM time with
  | some d, some t => some (d * 1440 + t)
  | _, _ => none

/-- JS `<` on `Date` values: false whenever either side is Invalid (NaN). -/
def ltI : Option Nat → Option Nat → Bool
  | some a, some b => decide (a < b)
  | _, _ => false

/-- date-fns `addMinutes`; an Invalid Date stays Invalid. -/
def addMin (i : Option Nat) (m : Nat) : Option Nat :=
  i.map (· + m)

/-- reservationController `isOverlapping(startA, endA, startB, endB)`:
`startA < endB && endA > startB`. -/
def isOverlapping (startA endA startB endB : Option Nat) : Bool :=
  ltI startA endB && ltI startB endA

/-- models/types.ts `WorkingHour`.  `from`/`to` are Lean keywords, hence the
trailing underscore on the field names. -/
structure WorkingHour where
  meal : String
  from_ : String
  to_ : String
deriving DecidableEq

/-- models/types.ts `Student`. -/
structure Student where
  id : String
  name : String
  email : String
  isAdmin : Bool
deriving DecidableEq

/-- models/types.ts `Canteen`.  `capacity` is a positive integer per the data
model, represented as `Nat`. -/
structure Canteen where
  id : String
  name : String
  location : String
  capacity : Nat
  workingHours : List WorkingHour
deriving DecidableEq

/-- The `'Active' | 'Cancelled'` status union. -/
inductive ResStatus where
  | active
  | cancelled
deriving DecidableEq

/-- models/types.ts `Reservation`. -/
structure Reservation where
  id : String
  studentId : String
  canteenId : String
  date : String
  time : String
  duration : Nat
  status : ResStatus
deriving DecidableEq

/-- db.ts: the in-memory database. -/
structure Store where
  students : List Student
  canteens : List Canteen
  reservations : List Reservation
deriving DecidableEq

/-- The cleared database (`/debug/clear`, and the initial state). -/
def Store.empty : Store := ⟨[], [], []⟩

/-- A POST /reservations body.  An absent field arrives as JS `undefined` and
fails the truthiness presence check exactly like `""` (for the string fields)
and `0` (for `duration`), which is how absence is modelled here. -/
structure ReservationReq where
  studentId : String
  canteenId : String
  date : String
  time : String
  duration : Nat
deriving DecidableEq

/-- The nine rejection reasons of the validator, in the order of §4.2/§7. -/
inductive RejectionReason where
  | missingFields
  | studentNotFound
  | invalidDuration
  | invalidTimeSlot
  | pastReservation
  | canteenNotFound
  | outsideWorkingHours
  | studentDoubleBooked
  | capacityExceeded
deriving DecidableEq

/-- Parsed start instant of a stored reservation
(`parse(r.date + 'T' + r.time, ...)`). -/
def resStart (r : Reservation) : Option Nat :=
  parseDateTime r.date r.time

/-- Parsed end instant of a stored reservation (`addMinutes(start, r.duration)`). -/
def resEnd (r : Reservation) : Option Nat :=
  addMin (resStart r) r.duration

/-- The `fitsInSchedule` working-hours test of `createReservation`: some block
satisfies `resStartMin >= whFromMin && resEndMin <= whToMin`, all minute
offsets computed with `parseInt` on the raw strings. -/
def fitsInSchedule (c : Canteen) (time : String) (duration : Nat) : Bool :=
  c.workingHours.any fun wh =>
    match timeMinJS wh.from_, timeMinJS wh.to_, timeMinJS time with
    | some whFromMin, some whToMin, some resStartMin =>
        decide (whFromMin ≤ resStartMin) && decide (resStartMin + duration ≤ whToMin)
    | _, _, _ => false

/-- The `studentHasOverlap` scan of `createReservation`: some reservation of
the same student that is not Cancelled overlaps the requested interval. -/
def studentHasOverlap (rs : List Reservation) (studentId : String)
    (reservationStart reservationEnd : Option Nat) : Bool :=
  rs.any fun r =>
    if r.studentId ≠ studentId ∨ r.status = .cancelled then false
    else isOverlapping reservationStart reservationEnd (resStart r) (resEnd r)

/-- The `concurrentReservations` filter of `createReservation`: non-Cancelled
reservations of the canteen overlapping the requested interval. -/
def concurrentReservations (rs : List Reservation) (canteenId : String)
    (reservationStart reservationEnd : Option Nat) : List Reservation :=
  rs.filter fun r =>
    if r.canteenId ≠ canteenId ∨ r.status = .cancelled then false
    else isOverlapping reservationStart reservationEnd (resStart r) (resEnd r)

/-- The record `createReservation` builds on success (`uuidv4()` passed in as
`newId`). -/
def newRes (req : ReservationReq) (newId : String) : Reservation :=
  { id := newId, status := .active, studentId := req.studentId,
    canteenId := req.canteenId, date := req.date, time := req.time,
    duration := req.duration }

/-- reservationController.createReservation.  The mutable `db` is threaded as
an explicit store; `now` is the wall clock (`new Date()`) in absolute minutes
and `newId` the generated uuid.  Every rejection leaves the store untouched
and reports its reason; success appends the new Active reservation. -/
def createReservation (req : ReservationReq) (now : Nat) (newId : String)
    (s : Store) : Store × Except RejectionReason Reservation :=
  if req.studentId == "" || req.canteenId == "" || req.date == "" ||
      req.time == "" || req.duration == 0 then
    (s, .error .missingFields)
  else
    match s.students.find? (fun st => st.id == req.studentId) with
    | none => (s, .error .studentNotFound)
    | some _ =>
      if req.duration != 30 && req.duration != 60 then (s, .error .invalidDuration)
      else
        let minutesPart := splitColon req.time 1
        if minutesPart != "00" && minutesPart != "30" then (s, .error .invalidTimeSlot)
        else
          let reservationStart := parseDateTime req.date req.time
          if ltI reservationStart (some now) then (s, .error .pastReservation)
          else
            match s.canteens.find? (fun c => c.id == req.canteenId) with
            | none => (s, .error .canteenNotFound)
            | some canteen =>
              let reservationEnd := addMin reservationStart req.duration
              if ! fitsInSchedule canteen req.time req.duration then
                (s, .error .outsideWorkingHours)
              else if studentHasOverlap s.reservations req.studentId
                  reservationStart reservationEnd then
                (s, .error .studentDoubleBooked)
              else if decide (canteen.capacity ≤ (concurrentReservations s.reservations
                  req.canteenId reservationStart reservationEnd).length) then
                (s, .error .capacityExceeded)
              else
                ({ s with reservations := s.reservations ++ [newRes req newId] },
                 .ok (newRes req newId))

/-- The in-place `reservation.status = 'Cancelled'` mutation: the first
reservation with the id has its status flipped, the rest is untouched. -/
def cancelFirst : List Reservation → String → List Reservation
  | [], _ => []
  | r :: rs, rid =>
    if r.id == rid then { r with status := .cancelled } :: rs
    else r :: cancelFirst rs rid

/-- reservationController.cancelReservation: `NotFound` (modelled `.error ()`)
when no reservation has the id, otherwise flips the found reservation's status
to Cancelled and returns the updated record. -/
def cancelReservation (rid : String) (s : Store) : Store × Except Unit Reservation :=
  match s.reservations.find? (fun r => r.id == rid) with
  | none => (s, .error ())
  | some r =>
    ({ s with reservations := cancelFirst s.reservations rid },
     .ok { r with status := .cancelled })

/-- A computed availability slot.  The calendar date is carried as a day
number and the start time as a minute offset; the controller's
`'yyyy-MM-dd'`/`'HH:mm'` formatting of these values back into strings is
presentation-layer plumbing. -/
structure Slot where
  date : Nat
  meal : String
  startTime : Nat
  remainingCapacity : Nat
deriving DecidableEq

/-- The candidate start times of one day in `calculateSlots`: from `startM`,
stepping by `duration` minutes, strictly below `endM` (the inner while loop).
For `duration = 0` the source loop would not terminate; this model returns
the empty list there, and every theorem about it assumes duration 30 or 60. -/
def slotStarts (startM endM duration : Nat) : List Nat :=
  List.range' startM ((endM - startM + duration - 1) / duration) duration

/-- The working-hour lookup in `calculateSlots`: the first block with
`currentSlotTime >= whStart && slotEndTime <= whEnd`.  Unlike the validator's
`fitsInSchedule`, the block bounds here go through the date-fns parse. -/
def slotBlock (c : Canteen) (slotStartMin slotEndMin : Nat) : Option WorkingHour :=
  c.workingHours.find? fun wh =>
    match parseTimeHM wh.from_, parseTimeHM wh.to_ with
    | some whStart, some whEnd =>
        decide (whStart ≤ slotStartMin) && decide (slotEndMin ≤ whEnd)
    | _, _ => false

/-- The `activeReservations` count of one slot in `calculateSlots`:
non-Cancelled reservations of the canteen with
`currentSlotTime < rEnd && slotEndTime > rStart` (absolute instants). -/
def slotActiveCount (rs : List Reservation) (cid : String)
    (slotAbs slotEndAbs : Nat) : Nat :=
  (rs.filter fun r =>
    if r.canteenId ≠ cid ∨ r.status = .cancelled then false
    else ltI (some slotAbs) (resEnd r) && ltI (resStart r) (some slotEndAbs)).length

/-- The body of the inner while loop of `calculateSlots` for one day: every
candidate start time whose interval fits a working-hour block becomes a slot
carrying that block's meal and `Math.max(0, capacity - activeReservations)`
(truncated `Nat` subtraction); candidates fitting no block are dropped. -/
def dailySlots (c : Canteen) (rs : List Reservation) (day sm em dur : Nat) : List Slot :=
  (slotStarts sm em dur).filterMap fun m =>
    match slotBlock c m (m + dur) with
    | some wh =>
      some { date := day, meal := wh.meal, startTime := m,
             remainingCapacity := c.capacity -
               slotActiveCount rs c.id (day * 1440 + m) (day * 1440 + m + dur) }
    | none => none

/-- canteenController.calculateSlots: for every calendar day from `startDate`
to `endDate` inclusive, the slots of that day (`dailySlots`).  An invalid
date bound or time bound empties the corresponding loop exactly as NaN
comparisons do in the source. -/
def calculateSlots (c : Canteen) (rs : List Reservation)
    (startDate endDate startTime endTime : String) (duration : Nat) : List Slot :=
  match parseDate startDate, parseDate endDate with
  | some d0, some d1 =>
    (List.range' d0 (d1 + 1 - d0) 1).flatMap fun day =>
      match parseTimeHM startTime, parseTimeHM endTime with
      | some sm, some em => dailySlots c rs day sm em duration
      | _, _ => []
  | _, _ => []

/-- studentController.createStudent as a store operation (the generated uuid
is passed in as `newId`; `!!isAdmin` coerces an absent flag to a Bool, taken
here as an argument): presence check, unique-email check, push. -/
def createStudent (newId name email : String) (isAdmin : Bool) (s : Store) : Store :=
  if name = "" ∨ email = "" then s
  else if s.students.any (fun st => st.email == email) then s
  else { s with students := s.students ++
          [{ id := newId, name := name, email := email, isAdmin := isAdmin }] }

/-- canteenController.createCanteen as a store operation, without the admin
gate (authorization-header handling is plumbing outside the core): the
truthiness presence check (`!capacity` makes capacity 0 "missing"; `![]` is
false in JS, so an empty workingHours array passes), then push. -/
def createCanteen (newId name location : String) (capacity : Nat)
    (workingHours : List WorkingHour) (s : Store) : Store :=
  if name = "" ∨ location = "" ∨ capacity = 0 then s
  else { s with canteens := s.canteens ++
          [{ id := newId, name := name, location := location,
             capacity := capacity, workingHours := workingHours }] }

/-- A PUT /canteens/:id body: `{...canteen, ...req.body}` merges the present
fields of the body over the stored record, with no re-validation. -/
structure CanteenPatch where
  id : Option String := none
  name : Option String := none
  location : Option String := none
  capacity : Option Nat := none
  workingHours : Option (List WorkingHour) := none
deriving DecidableEq

/-- The `{...canteen, ...req.body}` spread merge. -/
def applyPatch (c : Canteen) (p : CanteenPatch) : Canteen :=
  { id := p.id.getD c.id, name := p.name.getD c.name,
    location := p.location.getD c.location, capacity := p.capacity.getD c.capacity,
    workingHours := p.workingHours.getD c.workingHours }

/-- Replace the first canteen with the id by its patched version. -/
def patchFirst : List Canteen → String → CanteenPatch → List Canteen
  | [], _, _ => []
  | c :: cs, cid, p =>
    if c.id == cid then applyPatch c p :: cs else c :: patchFirst cs cid p

/-- canteenController.updateCanteen without the admin gate: find the index,
404 (no change) when absent, else overwrite with the spread merge. -/
def updateCanteen (cid : String) (p : CanteenPatch) (s : Store) : Store :=
  if s.canteens.any (fun c => c.id == cid) then
    { s with canteens := patchFirst s.canteens cid p }
  else s

/-- Remove the first canteen with the id (`splice(index, 1)`). -/
def deleteFirst : List Canteen → String → List Canteen
  | [], _ => []
  | c :: cs, cid => if c.id == cid then cs else c :: deleteFirst cs cid

/-- The cascade of canteenController.deleteCanteen: every Active reservation
of the canteen becomes Cancelled. -/
def cancelCanteenRes (rs : List Reservation) (cid : String) : List Reservation :=
  rs.map fun r =>
    if r.canteenId = cid ∧ r.status = .active then { r with status := .cancelled } else r

/-- canteenController.deleteCanteen without the admin gate: 404 (no change)
when the id is absent, else remove the canteen and cancel its Active
reservations. -/
def deleteCanteen (cid : String) (s : Store) : Store :=
  if s.canteens.any (fun c => c.id == cid) then
    { s with canteens := deleteFirst s.canteens cid,
             reservations := cancelCanteenRes s.reservations cid }
  else s

/-- The state-changing API operations, each carrying the uuid(s) and wall
clock the corresponding handler would obtain at run time. -/
inductive Op where
  | createRes (req : ReservationReq) (now : Nat) (newId : String)
  | cancelRes (rid : String)
  | addStudent (newId name email : String) (isAdmin : Bool)
  | addCanteen (newId name location : String) (capacity : Nat)
      (workingHours : List WorkingHour)
  | patchCanteen (cid : String) (p : CanteenPatch)
  | removeCanteen (cid : String)
deriving DecidableEq

/-- Effect of one operation on the store. -/
def applyOp (s : Store) : Op → Store
  | .createRes req now newId => (createReservation req now newId s).1
  | .cancelRes rid => (cancelReservation rid s).1
  | .addStudent newId name email isAdmin => createStudent newId name email isAdmin s
  | .addCanteen newId name location capacity wh =>
      createCanteen newId name location capacity wh s
  | .patchCanteen cid p => updateCanteen cid p s
  | .removeCanteen cid => deleteCanteen cid s

/-- Run a sequence of operations from a starting store. -/
def runOps (s : Store) (ops : List Op) : Store :=
  ops.foldl applyOp s

/-- Spec §4.2 check 1: all five fields present and non-empty, via JS
truthiness (`""` and `0` are falsy). -/
def checkMissing (req : ReservationReq) : Bool :=
  req.studentId == "" || req.canteenId == "" || req.date == "" ||
    req.time == "" || req.duration == 0

/-- Spec §4.2 check 2: `studentId` resolves to an existing student. -/
def checkNoStudent (s : Store) (req : ReservationReq) : Bool :=
  (s.students.find? (fun st => st.id == req.studentId)).isNone

/-- Spec §4.2 check 3: duration in constant set 30/60. -/
def checkBadDuration (req : ReservationReq) : Bool :=
  req.duration != 30 && req.duration != 60

/-- Spec §4.2 check 4: grid alignment of the minute component. -/
def checkOffGrid (req : ReservationReq) : Bool :=
  splitColon req.time 1 != "00" && splitColon req.time 1 != "30"

/-- Spec §4.2 check 5: the start instant is not strictly in the past. -/
def checkPast (req : ReservationReq) (now : Nat) : Bool :=
  ltI (parseDateTime req.date req.time) (some now)

/-- Spec §4.2 check 6: `canteenId` resolves to an existing canteen. -/
def checkNoCanteen (s : Store) (req : ReservationReq) : Bool :=
  (s.canteens.find? (fun c => c.id == req.canteenId)).isNone

/-- Spec §4.2 check 7: the interval fits no working-hour block entirely
(only reachable when the canteen exists). -/
def checkOutsideHours (s : Store) (req : ReservationReq) : Bool :=
  match s.canteens.find? (fun c => c.id == req.canteenId) with
  | some c => ! fitsInSchedule c req.time req.duration
  | none => false

/-- Spec §4.2 check 8: an Active reservation of the student overlaps. -/
def checkDoubleBooked (s : Store) (req : ReservationReq) : Bool :=
  studentHasOverlap s.reservations req.studentId (parseDateTime req.date req.time)
    (addMin (parseDateTime req.date req.time) req.duration)

/-- Spec §4.2 check 9: the overlap count of the canteen reaches capacity. -/
def checkCapacity (s : Store) (req : ReservationReq) : Bool :=
  match s.canteens.find? (fun c => c.id == req.canteenId) with
  | some c =>
    decide (c.capacity ≤ (concurrentReservations s.reservations req.canteenId
      (parseDateTime req.date req.time)
      (addMin (parseDateTime req.date req.time) req.duration)).length)
  | none => false

/-- The spec-side description of §4.2: the ordered, short-circuiting rule
chain, reporting the first failing check in the spec's exact order. -/
def specFirstFailure (req : ReservationReq) (now : Nat) (s : Store) :
    Option RejectionReason :=
  if checkMissing req then some .missingFields
  else if checkNoStudent s req then some .studentNotFound
  else if checkBadDuration req then some .invalidDuration
  else if checkOffGrid req then some .invalidTimeSlot
  else if checkPast req now then some .pastReservation
  else if checkNoCanteen s req then some .canteenNotFound
  else if checkOutsideHours s req then some .outsideWorkingHours
  else if checkDoubleBooked s req then some .studentDoubleBooked
  else if checkCapacity s req then some .capacityExceeded
  else none

/-- The store used in the duration-0 analysis: one student `s1` and one
canteen `c1` exist, so nothing but the duration is wrong with the request. -/
def c9Store : Store :=
  ⟨[⟨"s1", "Ana", "ana@uni", false⟩],
   [⟨"c1", "Menza", "NS", 10, [⟨"lunch", "11:00", "15:00"⟩]⟩], []⟩

/-- The two-block canteen of the spec's working-hours example: breakfast
07:00–10:00 and lunch 11:00–15:00. -/
def gapCanteen : Canteen :=
  ⟨"c2", "Menza", "NS", 50,
   [⟨"breakfast", "07:00", "10:00"⟩, ⟨"lunch", "11:00", "15:00"⟩]⟩

/-- A store holding `gapCanteen` and one student, used to exercise the
working-hours rejection end to end. -/
def gapStore : Store :=
  ⟨[⟨"s1", "Ana", "ana@uni", false⟩], [gapCanteen], []⟩

/-- The deterministic output order of the slot calculator: ascending by
date, then by start time within a date. -/
def slotOrder (a b : Slot) : Prop :=
  a.date < b.date ∨ (a.date = b.date ∧ a.startTime < b.startTime)

/-- Store for the C8 witness: capacity-1 canteen, one Active reservation of
the same student at the very slot being requested. -/
def c8Store : Store :=
  ⟨[⟨"s1", "Ana", "ana@uni", false⟩],
   [⟨"c1", "Menza", "NS", 1, [⟨"lunch", "11:00", "15:00"⟩]⟩],
   [⟨"r0", "s1", "c1", "2025-12-01", "12:00", 30, .active⟩]⟩

/-- The only mutation a store operation ever applies to an existing
reservation record: leave it alone or flip its status to Cancelled. -/
def statusWeaken (a b : Reservation) : Prop :=
  b = a ∨ b = { a with status := .cancelled }

/-- Overlap of two stored reservations' parsed half-open intervals, exactly
as the validator computes it. -/
def resOverlap (r1 r2 : Reservation) : Bool :=
  isOverlapping (resStart r1) (resEnd r1) (resStart r2) (resEnd r2)

/-- The per-pair double-booking invariant: two Active reservations of the
same student never overlap. -/
def overlapFree (r1 r2 : Reservation) : Prop :=
  r1.status = .active → r2.status = .active → r1.studentId = r2.studentId →
    resOverlap r1 r2 = false

/-- The store-wide double-booking invariant over the reservation list. -/
def NoStudentOverlap (rs : List Reservation) : Prop :=
  rs.Pairwise overlapFree

/-- Out-of-range default for positional access to the reservation list. -/
def dummyRes : Reservation := ⟨"", "", "", "", "", 0, .active⟩

/-- Operation sequence for the C4 witness: one student books two
non-overlapping slots. -/
def ops4 : List Op :=
  [.addStudent "s1" "Ana" "ana@uni" false,
   .addCanteen "c1" "Menza" "NS" 10 [⟨"lunch", "11:00", "15:00"⟩],
   .createRes ⟨"s1", "c1", "2025-12-01", "11:00", 30⟩ 0 "r1",
   .createRes ⟨"s1", "c1", "2025-12-01", "12:00", 30⟩ 0 "r2"]

/-- Does reservation `r` count against canteen `cid` at instant `t`: it
references the canteen, is Active, and its parsed half-open interval
contains `t`. -/
def activeContains (cid : String) (t : Nat) (r : Reservation) : Bool :=
  r.canteenId == cid && r.status == ResStatus.active &&
    (match resStart r with
     | some a => decide (a ≤ t) && decide (t < a + r.duration)
     | none => false)

/-- Number of Active reservations of a canteen whose interval contains the
instant. -/
def activeAt (rs : List Reservation) (cid : String) (t : Nat) : Nat :=
  rs.countP (activeContains cid t)

/-- The capacity invariant of C3: at no instant do the Active reservations
of a canteen outnumber its capacity. -/
def CapacityInv (s : Store) : Prop :=
  ∀ c ∈ s.canteens, ∀ t, activeAt s.reservations c.id t ≤ c.capacity

/-- Auxiliary invariant: every Active reservation references an existing
canteen (deleting a canteen cancels its reservations, and creating one
requires it to exist). -/
def ActiveRefs (s : Store) : Prop :=
  ∀ r ∈ s.reservations, r.status = .active → ∃ c ∈ s.canteens, c.id = r.canteenId

/-- The inductive invariant for C3: unique canteen ids, Active reservations
reference existing canteens, and the capacity bound. -/
def StoreInv (s : Store) : Prop :=
  (s.canteens.map Canteen.id).Nodup ∧ ActiveRefs s ∧ CapacityInv s

/-- Side conditions under which an operation is run: a created canteen's
uuid is fresh (modelling uuid uniqueness), and a canteen update neither
changes the id nor decreases the capacity.  All other operations are
unconstrained. -/
def OpCond (s : Store) : Op → Prop
  | .addCanteen newId _ _ _ _ => ∀ c ∈ s.canteens, c.id ≠ newId
  | .patchCanteen cid p => p.id = none ∧
      (∀ c ∈ s.canteens, c.id = cid → ∀ k, p.capacity = some k → c.capacity ≤ k)
  | _ => True

/-- An operation sequence whose side conditions hold along the run. -/
inductive OpsOK : Store → List Op → Prop where
  | nil (s : Store) : OpsOK s []
  | cons {s : Store} {o : Op} {ops : List Op} :
      OpCond s o → OpsOK (applyOp s o) ops → OpsOK s (o :: ops)

/-- Operation sequence refuting C3 as stated: fill a capacity-1 canteen,
then PUT its capacity down to 0 — `updateCanteen` re-checks nothing. -/
def breakOps : List Op :=
  [.addStudent "s1" "Ana" "ana@uni" false,
   .addCanteen "c1" "Menza" "NS" 1 [⟨"breakfast", "07:00", "10:00"⟩],
   .createRes ⟨"s1", "c1", "2025-12-01", "07:00", 30⟩ 0 "r1",
   .patchCanteen "c1" ⟨none, none, none, some 0, none⟩]

/-- Operation sequence for the C3 witness. -/
def goodOps : List Op :=
  [.addStudent "s1" "Ana" "ana@uni" false,
   .addCanteen "c1" "Menza" "NS" 1 [⟨"breakfast", "07:00", "10:00"⟩],
   .createRes ⟨"s1", "c1", "2025-12-01", "07:00", 30⟩ 0 "r1"]

/-- Shared refinement fact: the nested early-return control flow of
`createReservation` computes exactly the first failing check of the spec's
ordered chain (§4.2), and on success appends the new Active reservation. -/
theorem createReservation_run (req : ReservationReq) (now : Nat) (newId : String)
    (s : Store) :
    createReservation req now newId s =
      match specFirstFailure req now s with
      | some e => (s, Except.error e)
      | none => ({ s with reservations := s.reservations ++ [newRes req newId] },
                 Except.ok (newRes req newId)) := by
  unfold createReservation specFirstFailure checkMissing checkNoStudent checkBadDuration
    checkOffGrid checkPast checkNoCanteen checkOutsideHours checkDoubleBooked checkCapacity
  cases hst : s.students.find? (fun st => st.id == req.studentId) <;>
  cases hca : s.canteens.find? (fun c => c.id == req.canteenId) <;>
    simp only [hst, hca, Option.isNone_none, Option.isNone_some] <;>
    split_ifs <;> first | rfl | contradiction

/-- C1: the nine validation checks of `createReservation` run in exactly the
spec's order — MissingFields, StudentNotFound, InvalidDuration,
InvalidTimeSlot, PastReservation, CanteenNotFound, OutsideWorkingHours,
StudentDoubleBooked, CapacityExceeded — each short-circuiting, so the
reported rejection is always the first failing check of that ordered chain
(`specFirstFailure`); on success a new reservation with status Active is
appended to the store and returned. -/
theorem createReservation_ordered_checks (req : ReservationReq) (now : Nat)
    (newId : String) (s : Store) :
    createReservation req now newId s =
      (match specFirstFailure req now s with
       | some e => (s, Except.error e)
       | none => ({ s with reservations := s.reservations ++ [newRes req newId] },
                  Except.ok (newRes req newId))) ∧
    (newRes req newId).status = .active :=
  ⟨createReservation_run req now newId s, rfl⟩

/-- Shared: a rejected `createReservation` call leaves the store untouched. -/
theorem createReservation_error_store (req : ReservationReq) (now : Nat)
    (newId : String) (s : Store) (e : RejectionReason)
    (h : (createReservation req now newId s).2 = .error e) :
    (createReservation req now newId s).1 = s := by
  rcases hf : specFirstFailure req now s with _ | e2
  · rw [createReservation_run, hf] at h
    exact absurd h (by simp)
  · rw [createReservation_run, hf]

/-- C10: whenever `createReservation` reports any rejection reason, the store
is left completely unchanged — no reservation is appended and no student,
canteen or reservation record is modified; mutation happens only on the
success path. -/
theorem rejection_leaves_store_unchanged (req : ReservationReq) (now : Nat)
    (newId : String) (s : Store) (e : RejectionReason)
    (h : (createReservation req now newId s).2 = .error e) :
    (createReservation req now newId s).1 = s :=
  createReservation_error_store req now newId s e h

/-- Witness for C10 at a concrete rejected request. -/
theorem rejection_leaves_store_unchanged_witness :
    (createReservation ⟨"", "", "", "", 0⟩ 0 "r1" Store.empty).1 = Store.empty :=
  rejection_leaves_store_unchanged ⟨"", "", "", "", 0⟩ 0 "r1" Store.empty
    .missingFields rfl

/-- C9 counterexample: a request whose studentId, canteenId, date and time
are all present and valid but whose duration is 0 is rejected with
MissingFields — JS `!0` is true, so duration 0 fails the truthiness presence
check before the duration check can run — and not with InvalidDuration. -/
theorem duration_zero_counterexample :
    (createReservation ⟨"s1", "c1", "2025-12-01", "12:00", 0⟩ 0 "r1" c9Store).2
        = .error .missingFields ∧
    RejectionReason.missingFields ≠ RejectionReason.invalidDuration :=
  ⟨rfl, by decide⟩

/-- C9 amended: duration 0 is caught by the presence check and yields
MissingFields (never InvalidDuration); a present (nonzero) duration outside
the set 30/60 yields InvalidDuration when the student exists; and an empty
required string field yields MissingFields. -/
theorem duration_zero_amended :
    (∀ (req : ReservationReq) (now : Nat) (newId : String) (s : Store),
      req.duration = 0 →
      (createReservation req now newId s).2 = .error .missingFields) ∧
    (∀ (req : ReservationReq) (now : Nat) (newId : String) (s : Store)
      (st : Student),
      req.studentId ≠ "" → req.canteenId ≠ "" → req.date ≠ "" → req.time ≠ "" →
      req.duration ≠ 0 → req.duration ≠ 30 → req.duration ≠ 60 →
      s.students.find? (fun x => x.id == req.studentId) = some st →
      (createReservation req now newId s).2 = .error .invalidDuration) ∧
    (∀ (req : ReservationReq) (now : Nat) (newId : String) (s : Store),
      (req.studentId = "" ∨ req.canteenId = "" ∨ req.date = "" ∨ req.time = "") →
      (createReservation req now newId s).2 = .error .missingFields) := by
  refine ⟨?_, ?_, ?_⟩
  · intro req now newId s h
    simp [createReservation, h]
  · intro req now newId s st h1 h2 h3 h4 h5 h30 h60 hst
    simp [createReservation, hst, h1, h2, h3, h4, h5, h30, h60]
  · intro req now newId s h
    rcases h with h | h | h | h <;> simp [createReservation, h]

/-- Witness for C9's amended statement at concrete inputs. -/
theorem duration_zero_amended_witness :
    (createReservation ⟨"s1", "c1", "2025-12-01", "12:00", 45⟩ 0 "r1" c9Store).2
      = .error .invalidDuration :=
  duration_zero_amended.2.1 ⟨"s1", "c1", "2025-12-01", "12:00", 45⟩ 0 "r1" c9Store
    ⟨"s1", "Ana", "ana@uni", false⟩ (by decide) (by decide) (by decide) (by decide)
    (by decide) (by decide) (by decide) rfl

/-- C6: the overlap test is half-open — `isOverlapping` is true iff
`startA < endB` and `endA > startB`; intervals that merely touch at an
endpoint (in either order) do not overlap; the slot calculator's inline
count uses the very same test; and concretely, an Active reservation ending
at 12:00 does not block the same student's request starting at 12:00. -/
theorem overlap_half_open :
    (∀ a b c d : Nat,
      (isOverlapping (some a) (some b) (some c) (some d) = true) ↔ (a < d ∧ b > c)) ∧
    (∀ a b c : Nat, isOverlapping (some a) (some b) (some b) (some c) = false) ∧
    (∀ a b c : Nat, isOverlapping (some b) (some c) (some a) (some b) = false) ∧
    (∀ (rs : List Reservation) (cid : String) (x y : Nat),
      slotActiveCount rs cid x y =
        (rs.filter fun r =>
          if r.canteenId ≠ cid ∨ r.status = .cancelled then false
          else isOverlapping (some x) (some y) (resStart r) (resEnd r)).length) ∧
    studentHasOverlap
      [⟨"r0", "s1", "c1", "2025-12-01", "11:00", 60, .active⟩] "s1"
      (parseDateTime "2025-12-01" "12:00")
      (addMin (parseDateTime "2025-12-01" "12:00") 30) = false := by
  refine ⟨?_, ?_, ?_, ?_, ?_⟩
  · intro a b c d
    simp [isOverlapping, ltI, and_comm]
  · intro a b c
    simp [isOverlapping, ltI]
  · intro a b c
    simp [isOverlapping, ltI]
  · intro rs cid x y
    rfl
  · decide

/-- `cancelFirst` on a list split around the first id match rewrites exactly
that element's status. -/
theorem cancelFirst_decomp (l1 l2 : List Reservation) (r0 : Reservation) (rid : String)
    (h1 : ∀ r ∈ l1, (r.id == rid) = false) (h0 : (r0.id == rid) = true) :
    cancelFirst (l1 ++ r0 :: l2) rid = l1 ++ { r0 with status := .cancelled } :: l2 := by
  induction l1 with
  | nil => simp [cancelFirst, h0]
  | cons a l1 ih =>
    have ha : (a.id == rid) = false := h1 a (by simp)
    simp only [List.cons_append, cancelFirst, ha]
    simp only [Bool.false_eq_true, if_false, List.cons.injEq, true_and]
    exact ih fun r hr => h1 r (by simp [hr])

/-- C7: `cancelReservation` fails with NotFound iff no reservation with the
id exists; otherwise it flips exactly the first matching reservation's status
to Cancelled — regardless of its current status — leaves every other record
as it was, and returns the updated record; in particular cancelling an
already-Cancelled reservation succeeds and returns it still Cancelled. -/
theorem cancel_contract (rid : String) (s : Store) :
    ((cancelReservation rid s).2 = .error () ↔ ∀ r ∈ s.reservations, r.id ≠ rid) ∧
    (∀ r0, s.reservations.find? (fun r => r.id == rid) = some r0 →
      ∃ l1 l2, s.reservations = l1 ++ r0 :: l2 ∧ (∀ r ∈ l1, r.id ≠ rid) ∧ r0.id = rid ∧
        cancelReservation rid s =
          ({ s with reservations := l1 ++ { r0 with status := ResStatus.cancelled } :: l2 },
           Except.ok { r0 with status := ResStatus.cancelled })) ∧
    (cancelReservation "r1"
        ⟨[], [], [⟨"r1", "s1", "c1", "2025-12-01", "12:00", 30, .cancelled⟩]⟩).2
      = .ok ⟨"r1", "s1", "c1", "2025-12-01", "12:00", 30, .cancelled⟩ := by
  refine ⟨?_, ?_, by rfl⟩
  · cases hf : s.reservations.find? (fun r => r.id == rid) with
    | none =>
      simp only [cancelReservation, hf]
      constructor
      · intro _ r hr
        have := List.find?_eq_none.mp hf r hr
        simpa using this
      · intro _
        trivial
    | some r =>
      simp only [cancelReservation, hf]
      constructor
      · intro h
        exact absurd h (by simp)
      · intro h
        obtain ⟨hp, _⟩ := List.find?_eq_some.mp hf
        exact absurd (by simpa using hp) (h r (List.mem_of_find?_eq_some hf))
  · intro r0 hf
    obtain ⟨hp, l1, l2, hl, hfalse⟩ := List.find?_eq_some.mp hf
    have hfalse2 : ∀ r ∈ l1, (r.id == rid) = false := by
      intro r hr
      simpa using hfalse r hr
    refine ⟨l1, l2, hl, ?_, by simpa using hp, ?_⟩
    · intro r hr
      simpa using hfalse2 r hr
    · simp only [cancelReservation, hf]
      rw [hl, cancelFirst_decomp l1 l2 r0 rid hfalse2 hp]

/-- Witness for C7's found-case characterization at a concrete store. -/
theorem cancel_contract_witness :
    ∃ l1 l2,
      (⟨[], [], [⟨"r1", "s1", "c1", "2025-12-01", "12:00", 30, .active⟩]⟩ : Store).reservations
          = l1 ++ (⟨"r1", "s1", "c1", "2025-12-01", "12:00", 30, .active⟩ : Reservation) :: l2 ∧
        (∀ r ∈ l1, r.id ≠ "r1") ∧
        (⟨"r1", "s1", "c1", "2025-12-01", "12:00", 30, .active⟩ : Reservation).id = "r1" ∧
        cancelReservation "r1"
            ⟨[], [], [⟨"r1", "s1", "c1", "2025-12-01", "12:00", 30, .active⟩]⟩ =
          ({ (⟨[], [], [⟨"r1", "s1", "c1", "2025-12-01", "12:00", 30, .active⟩]⟩ : Store) with
              reservations := l1 ++
                { (⟨"r1", "s1", "c1", "2025-12-01", "12:00", 30, .active⟩ : Reservation) with
                    status := ResStatus.cancelled } :: l2 },
           Except.ok { (⟨"r1", "s1", "c1", "2025-12-01", "12:00", 30, .active⟩ : Reservation) with
              status := ResStatus.cancelled }) :=
  (cancel_contract "r1" ⟨[], [], [⟨"r1", "s1", "c1", "2025-12-01", "12:00", 30, .active⟩]⟩).2.1
    ⟨"r1", "s1", "c1", "2025-12-01", "12:00", 30, .active⟩ rfl

/-- C2: the working-hours check accepts iff the interval
`[start, start+duration)` fits entirely within a single block
(`block.from <= start` and `start+duration <= block.to` in minute offsets);
spanning two adjacent blocks is rejected even across a zero-width gap, and
concretely a 30-minute request at 10:00 against blocks 07:00–10:00 and
11:00–15:00 is rejected with OutsideWorkingHours. -/
theorem working_hours_single_block :
    (∀ (c : Canteen) (time : String) (duration m : Nat),
      timeMinJS time = some m →
      (fitsInSchedule c time duration = true ↔
        ∃ wh ∈ c.workingHours, ∃ f t, timeMinJS wh.from_ = some f ∧
          timeMinJS wh.to_ = some t ∧ f ≤ m ∧ m + duration ≤ t)) ∧
    fitsInSchedule gapCanteen "10:00" 30 = false ∧
    (createReservation ⟨"s1", "c2", "2025-12-01", "10:00", 30⟩ 0 "r1" gapStore).2
      = .error .outsideWorkingHours := by
  refine ⟨?_, by decide, by rfl⟩
  intro c time duration m h
  unfold fitsInSchedule
  rw [List.any_eq_true]
  constructor
  · rintro ⟨wh, hm, hp⟩
    refine ⟨wh, hm, ?_⟩
    rw [h] at hp
    cases hf : timeMinJS wh.from_ with
    | none => rw [hf] at hp; exact absurd hp (by simp)
    | some f =>
      cases ht : timeMinJS wh.to_ with
      | none => rw [hf, ht] at hp; exact absurd hp (by simp)
      | some t =>
        rw [hf, ht] at hp
        exact ⟨f, t, rfl, rfl, by simpa using hp⟩
  · rintro ⟨wh, hm, f, t, hf, ht, hle1, hle2⟩
    exact ⟨wh, hm, by simp [hf, ht, h, hle1, hle2]⟩

/-- Witness for C2's fits-iff characterization: 12:00 for 30 minutes fits the
lunch block of `gapCanteen`. -/
theorem working_hours_single_block_witness :
    fitsInSchedule gapCanteen "12:00" 30 = true :=
  (working_hours_single_block.1 gapCanteen "12:00" 30 720 rfl).mpr
    ⟨⟨"lunch", "11:00", "15:00"⟩, by decide, 660, 900, rfl, rfl, by decide, by decide⟩

/-- Characterization of the candidate start times: the multiples of the
duration from `startM`, strictly below `endM`. -/
theorem mem_slotStarts {sm em dur x : Nat} (hdur : dur = 30 ∨ dur = 60) :
    x ∈ slotStarts sm em dur ↔ (∃ k, x = sm + k * dur) ∧ x < em := by
  rcases hdur with rfl | rfl <;>
    (unfold slotStarts
     rw [List.mem_range']
     constructor
     · rintro ⟨i, hi, rfl⟩
       exact ⟨⟨i, by ring⟩, by omega⟩
     · rintro ⟨⟨k, rfl⟩, hlt⟩
       exact ⟨k, by omega, by ring⟩)

/-- Characterization of the enumerated days: the inclusive range. -/
theorem mem_daysList {d0 d1 x : Nat} :
    x ∈ List.range' d0 (d1 + 1 - d0) 1 ↔ d0 ≤ x ∧ x ≤ d1 := by
  rw [List.mem_range']
  constructor
  · rintro ⟨i, hi, rfl⟩
    omega
  · intro h
    exact ⟨x - d0, by omega, by omega⟩

/-- Membership in one day's slots: exactly the grid candidates below the end
time that fit a block, with that block's meal and the capacity formula. -/
theorem mem_dailySlots {c : Canteen} {rs : List Reservation} {day sm em dur : Nat}
    {sl : Slot} (hdur : dur = 30 ∨ dur = 60) :
    sl ∈ dailySlots c rs day sm em dur ↔
      sl.date = day ∧ (∃ k, sl.startTime = sm + k * dur) ∧ sl.startTime < em ∧
      ∃ wh, slotBlock c sl.startTime (sl.startTime + dur) = some wh ∧ sl.meal = wh.meal ∧
        sl.remainingCapacity = c.capacity - slotActiveCount rs c.id
          (day * 1440 + sl.startTime) (day * 1440 + sl.startTime + dur) := by
  unfold dailySlots
  rw [List.mem_filterMap]
  constructor
  · rintro ⟨m, hm, hg⟩
    cases hb : slotBlock c m (m + dur) with
    | none => rw [hb] at hg; exact absurd hg (by simp)
    | some wh =>
      rw [hb] at hg
      injection hg with hg
      subst hg
      exact ⟨rfl, ((mem_slotStarts hdur).mp hm).1, ((mem_slotStarts hdur).mp hm).2,
        wh, hb, rfl, rfl⟩
  · obtain ⟨d, ml, st, rc⟩ := sl
    rintro ⟨hdate, hk, hlt, wh, hb, hmeal, hcap⟩
    refine ⟨st, (mem_slotStarts hdur).mpr ⟨hk, hlt⟩, ?_⟩
    rw [hb]
    simp only at hdate hmeal hcap
    subst hdate hmeal hcap
    rfl

/-- Every emitted slot of a day carries that day as its date. -/
theorem dailySlots_date {c : Canteen} {rs : List Reservation} {day sm em dur : Nat}
    {sl : Slot} (h : sl ∈ dailySlots c rs day sm em dur) : sl.date = day := by
  unfold dailySlots at h
  rw [List.mem_filterMap] at h
  obtain ⟨m, _, hg⟩ := h
  cases hb : slotBlock c m (m + dur) with
  | none => rw [hb] at hg; exact absurd hg (by simp)
  | some wh => rw [hb] at hg; injection hg with hg; subst hg; rfl

/-- Within one day the emitted slots are strictly increasing in start time. -/
theorem dailySlots_pairwise {c : Canteen} {rs : List Reservation} {day sm em dur : Nat}
    (hdur : dur = 30 ∨ dur = 60) :
    List.Pairwise slotOrder (dailySlots c rs day sm em dur) := by
  unfold dailySlots slotStarts
  rw [List.pairwise_filterMap]
  have hp := List.pairwise_lt_range' sm ((em - sm + dur - 1) / dur) dur
    (by rcases hdur with rfl | rfl <;> decide)
  refine hp.imp ?_
  intro a b hab sl1 h1 sl2 h2
  cases hb1 : slotBlock c a (a + dur) with
  | none => rw [hb1] at h1; exact absurd h1 (by simp)
  | some wh1 =>
    rw [hb1] at h1
    cases hb2 : slotBlock c b (b + dur) with
    | none => rw [hb2] at h2; exact absurd h2 (by simp)
    | some wh2 =>
      rw [hb2] at h2
      rw [Option.mem_def, Option.some_inj] at h1 h2
      subst h1 h2
      exact Or.inr ⟨rfl, hab⟩

/-- C5: for a valid query, `calculateSlots` enumerates, for each date from
startDate to endDate inclusive, candidate start times stepping by the
duration from startTime up to (exclusive) endTime; a candidate fitting no
working-hour block is omitted from the output entirely; every emitted slot
carries `remainingCapacity = max(0, capacity - overlapping Active count)`;
and the output is ordered ascending by date, then by start time. -/
theorem calculateSlots_enumeration
    (c : Canteen) (rs : List Reservation) (sD eD sT eT : String)
    (dur d0 d1 sm em : Nat)
    (hd0 : parseDate sD = some d0) (hd1 : parseDate eD = some d1)
    (hsm : parseTimeHM sT = some sm) (hem : parseTimeHM eT = some em)
    (hdur : dur = 30 ∨ dur = 60) :
    List.Pairwise slotOrder (calculateSlots c rs sD eD sT eT dur) ∧
    (∀ sl : Slot, sl ∈ calculateSlots c rs sD eD sT eT dur ↔
      (d0 ≤ sl.date ∧ sl.date ≤ d1 ∧
       (∃ k, sl.startTime = sm + k * dur) ∧ sl.startTime < em ∧
       ∃ wh, slotBlock c sl.startTime (sl.startTime + dur) = some wh ∧
         sl.meal = wh.meal ∧
         sl.remainingCapacity = c.capacity - slotActiveCount rs c.id
           (sl.date * 1440 + sl.startTime) (sl.date * 1440 + sl.startTime + dur))) ∧
    (∀ sl ∈ calculateSlots c rs sD eD sT eT dur,
      (sl.remainingCapacity : Int) = max 0 ((c.capacity : Int) - (slotActiveCount rs c.id
        (sl.date * 1440 + sl.startTime) (sl.date * 1440 + sl.startTime + dur) : Int))) := by
  have hcs : calculateSlots c rs sD eD sT eT dur =
      (List.range' d0 (d1 + 1 - d0) 1).flatMap
        (fun day => dailySlots c rs day sm em dur) := by
    unfold calculateSlots
    rw [hd0, hd1]
    simp only [hsm, hem]
  have hmem : ∀ sl : Slot, sl ∈ calculateSlots c rs sD eD sT eT dur ↔
      (d0 ≤ sl.date ∧ sl.date ≤ d1 ∧
       (∃ k, sl.startTime = sm + k * dur) ∧ sl.startTime < em ∧
       ∃ wh, slotBlock c sl.startTime (sl.startTime + dur) = some wh ∧
         sl.meal = wh.meal ∧
         sl.remainingCapacity = c.capacity - slotActiveCount rs c.id
           (sl.date * 1440 + sl.startTime) (sl.date * 1440 + sl.startTime + dur)) := by
    intro sl
    rw [hcs, List.mem_flatMap]
    constructor
    · rintro ⟨day, hday, hin⟩
      obtain rfl := dailySlots_date hin
      obtain ⟨-, hk, hlt, wh, hb, hmeal, hcap⟩ := (mem_dailySlots hdur).mp hin
      obtain ⟨h0, h1⟩ := mem_daysList.mp hday
      exact ⟨h0, h1, hk, hlt, wh, hb, hmeal, hcap⟩
    · rintro ⟨h0, h1, hk, hlt, wh, hb, hmeal, hcap⟩
      exact ⟨sl.date, mem_daysList.mpr ⟨h0, h1⟩,
        (mem_dailySlots hdur).mpr ⟨rfl, hk, hlt, wh, hb, hmeal, hcap⟩⟩
  refine ⟨?_, hmem, ?_⟩
  · rw [hcs, List.pairwise_flatMap]
    refine ⟨fun day _ => dailySlots_pairwise hdur, ?_⟩
    have hp := List.pairwise_lt_range' d0 (d1 + 1 - d0) 1 (by decide)
    refine hp.imp ?_
    intro day1 day2 h12 x hx y hy
    exact Or.inl (by rw [dailySlots_date hx, dailySlots_date hy]; exact h12)
  · intro sl hsl
    obtain ⟨-, -, -, -, wh, -, -, hcap⟩ := (hmem sl).mp hsl
    rw [hcap]
    omega

/-- Witness for C5 at the spec's own slot example (lunch 11:00–15:00, window
11:00–12:00, duration 30). -/
theorem calculateSlots_enumeration_witness :
    List.Pairwise slotOrder
      (calculateSlots gapCanteen [] "2025-12-01" "2025-12-01" "11:00" "12:00" 30) :=
  (calculateSlots_enumeration gapCanteen [] "2025-12-01" "2025-12-01" "11:00" "12:00" 30
    (dayNumber 2025 12 1) (dayNumber 2025 12 1) 660 720 rfl rfl rfl rfl (Or.inl rfl)).1

/-- Cancellation touches only the reservation list, never the students. -/
theorem cancel_students (rid : String) (s : Store) :
    (cancelReservation rid s).1.students = s.students := by
  unfold cancelReservation
  cases s.reservations.find? (fun r => r.id == rid) <;> rfl

/-- Cancellation touches only the reservation list, never the canteens. -/
theorem cancel_canteens (rid : String) (s : Store) :
    (cancelReservation rid s).1.canteens = s.canteens := by
  unfold cancelReservation
  cases s.reservations.find? (fun r => r.id == rid) <;> rfl

/-- A rejection at the double-booking or capacity stage means the seven
earlier checks all passed. -/
theorem specFirstFailure_late {req : ReservationReq} {now : Nat} {s : Store}
    (h : specFirstFailure req now s = some .studentDoubleBooked ∨
         specFirstFailure req now s = some .capacityExceeded) :
    checkMissing req = false ∧ checkNoStudent s req = false ∧
    checkBadDuration req = false ∧ checkOffGrid req = false ∧
    checkPast req now = false ∧ checkNoCanteen s req = false ∧
    checkOutsideHours s req = false := by
  unfold specFirstFailure at h
  rcases h with h | h <;> (split_ifs at h <;> simp_all)

/-- C8: when a request is rejected only because of an existing Active
reservation — StudentDoubleBooked or CapacityExceeded — cancelling the
conflicting reservation (after which no Active reservation of the student
overlaps, and the canteen's overlap count is below capacity) and
re-submitting the identical request succeeds and returns a newly created
Active reservation: Cancelled reservations are excluded from both the
double-booking and the capacity counts. -/
theorem cancel_then_retry
    (req : ReservationReq) (now : Nat) (newId cid : String) (s : Store)
    (h1 : (createReservation req now newId s).2 = .error .studentDoubleBooked ∨
          (createReservation req now newId s).2 = .error .capacityExceeded)
    (h2 : studentHasOverlap (cancelReservation cid s).1.reservations req.studentId
            (parseDateTime req.date req.time)
            (addMin (parseDateTime req.date req.time) req.duration) = false)
    (h3 : ∀ c, s.canteens.find? (fun x => x.id == req.canteenId) = some c →
          (concurrentReservations (cancelReservation cid s).1.reservations req.canteenId
            (parseDateTime req.date req.time)
            (addMin (parseDateTime req.date req.time) req.duration)).length < c.capacity) :
    createReservation req now newId (cancelReservation cid s).1 =
      ({ (cancelReservation cid s).1 with reservations :=
          (cancelReservation cid s).1.reservations ++ [newRes req newId] },
       .ok (newRes req newId)) ∧
    (newRes req newId).status = .active := by
  have hst : (cancelReservation cid s).1.students = s.students := cancel_students cid s
  have hca : (cancelReservation cid s).1.canteens = s.canteens := cancel_canteens cid s
  have hf : specFirstFailure req now s = some .studentDoubleBooked ∨
      specFirstFailure req now s = some .capacityExceeded := by
    have hrun := createReservation_run req now newId s
    rcases hff : specFirstFailure req now s with _ | e
    · rw [hrun, hff] at h1
      rcases h1 with h1 | h1 <;> exact absurd h1 (by simp)
    · rw [hrun, hff] at h1
      rcases h1 with h1 | h1 <;> simp at h1 <;> simp [h1]
  obtain ⟨e1, e2, e3, e4, e5, e6, e7⟩ := specFirstFailure_late hf
  have f2 : checkNoStudent (cancelReservation cid s).1 req = false := by
    unfold checkNoStudent at e2 ⊢
    rw [hst]
    exact e2
  have f6 : checkNoCanteen (cancelReservation cid s).1 req = false := by
    unfold checkNoCanteen at e6 ⊢
    rw [hca]
    exact e6
  have f7 : checkOutsideHours (cancelReservation cid s).1 req = false := by
    unfold checkOutsideHours at e7 ⊢
    rw [hca]
    exact e7
  have f8 : checkDoubleBooked (cancelReservation cid s).1 req = false := by
    unfold checkDoubleBooked
    exact h2
  have f9 : checkCapacity (cancelReservation cid s).1 req = false := by
    unfold checkCapacity
    rw [hca]
    cases hc : s.canteens.find? (fun x => x.id == req.canteenId) with
    | none => rfl
    | some c =>
      rw [decide_eq_false_iff_not]
      exact Nat.not_le.mpr (h3 c hc)
  have hnone : specFirstFailure req now (cancelReservation cid s).1 = none := by
    unfold specFirstFailure
    simp [e1, f2, e3, e4, e5, f6, f7, f8, f9]
  refine ⟨?_, rfl⟩
  rw [createReservation_run req now newId (cancelReservation cid s).1, hnone]

/-- Witness for C8: the request is first rejected as StudentDoubleBooked;
after cancelling the conflicting reservation `r0`, the identical request
succeeds. -/
theorem cancel_then_retry_witness :
    createReservation ⟨"s1", "c1", "2025-12-01", "12:00", 30⟩ 0 "r1"
        (cancelReservation "r0" c8Store).1 =
      ({ (cancelReservation "r0" c8Store).1 with reservations :=
          (cancelReservation "r0" c8Store).1.reservations ++
            [newRes ⟨"s1", "c1", "2025-12-01", "12:00", 30⟩ "r1"] },
       .ok (newRes ⟨"s1", "c1", "2025-12-01", "12:00", 30⟩ "r1")) :=
  (cancel_then_retry ⟨"s1", "c1", "2025-12-01", "12:00", 30⟩ 0 "r1" "r0" c8Store
    (Or.inl rfl) (by decide)
    (by
      intro c hc
      obtain rfl : (⟨"c1", "Menza", "NS", 1, [⟨"lunch", "11:00", "15:00"⟩]⟩ : Canteen) = c :=
        Option.some_inj.mp hc
      decide)).1

/-- The overlap test is symmetric. -/
theorem isOverlapping_comm (a b c d : Option Nat) :
    isOverlapping a b c d = isOverlapping c d a b := by
  unfold isOverlapping
  exact Bool.and_comm _ _

/-- Every element of the right list of a `statusWeaken` correspondence comes
from an element of the left list. -/
theorem forall₂_mem_right {l l' : List Reservation}
    (hf : List.Forall₂ statusWeaken l l') {y : Reservation} (hy : y ∈ l') :
    ∃ x ∈ l, statusWeaken x y := by
  induction hf with
  | nil => cases hy
  | cons hab htail ih =>
    rcases List.mem_cons.mp hy with rfl | hy2
    · exact ⟨_, List.mem_cons_self _ _, hab⟩
    · obtain ⟨x, hx, hxy⟩ := ih hy2
      exact ⟨x, List.mem_cons_of_mem _ hx, hxy⟩

/-- Cancellation by id only status-weakens the reservation list. -/
theorem cancelFirst_forall₂ (l : List Reservation) (rid : String) :
    List.Forall₂ statusWeaken l (cancelFirst l rid) := by
  induction l with
  | nil => exact .nil
  | cons r rs ih =>
    unfold cancelFirst
    by_cases h : (r.id == rid) = true
    · rw [if_pos h]
      exact .cons (Or.inr rfl) (List.forall₂_same.mpr fun x _ => Or.inl rfl)
    · rw [if_neg h]
      exact .cons (Or.inl rfl) ih

/-- The delete-canteen cascade only status-weakens the reservation list. -/
theorem cancelCanteenRes_forall₂ (rs : List Reservation) (cid : String) :
    List.Forall₂ statusWeaken rs (cancelCanteenRes rs cid) := by
  induction rs with
  | nil => exact .nil
  | cons r l ih =>
    refine List.Forall₂.cons ?_ ih
    by_cases h : (r.canteenId = cid ∧ r.status = ResStatus.active)
    · right
      show (if r.canteenId = cid ∧ r.status = ResStatus.active
            then { r with status := ResStatus.cancelled } else r) = _
      rw [if_pos h]
    · left
      show (if r.canteenId = cid ∧ r.status = ResStatus.active
            then { r with status := ResStatus.cancelled } else r) = r
      rw [if_neg h]

/-- A pairwise property stable under status weakening transfers along a
`statusWeaken` correspondence. -/
theorem pairwise_statusWeaken {P : Reservation → Reservation → Prop}
    (hstab : ∀ a b x y, statusWeaken a b → statusWeaken x y → P a x → P b y)
    {l l' : List Reservation} (hf : List.Forall₂ statusWeaken l l')
    (hp : l.Pairwise P) : l'.Pairwise P := by
  induction hf with
  | nil => exact .nil
  | cons hab htail ih =>
    obtain ⟨hhead, htl⟩ := List.pairwise_cons.mp hp
    refine List.pairwise_cons.mpr ⟨?_, ih htl⟩
    intro y hy
    obtain ⟨x, hx, hxy⟩ := forall₂_mem_right htail hy
    exact hstab _ _ _ _ hab hxy (hhead x hx)

/-- `overlapFree` is stable under status weakening: a pair with a Cancelled
member satisfies it vacuously. -/
theorem overlapFree_stable :
    ∀ a b x y, statusWeaken a b → statusWeaken x y → overlapFree a x → overlapFree b y := by
  intro a b x y hab hxy h h1 h2 h3
  rcases hab with rfl | rfl
  · rcases hxy with rfl | rfl
    · exact h h1 h2 h3
    · exact absurd h2 (by simp)
  · exact absurd h1 (by simp)

/-- A request that passes the whole chain fails none of the nine checks. -/
theorem specFirstFailure_none {req : ReservationReq} {now : Nat} {s : Store}
    (h : specFirstFailure req now s = none) :
    checkMissing req = false ∧ checkNoStudent s req = false ∧
    checkBadDuration req = false ∧ checkOffGrid req = false ∧
    checkPast req now = false ∧ checkNoCanteen s req = false ∧
    checkOutsideHours s req = false ∧ checkDoubleBooked s req = false ∧
    checkCapacity s req = false := by
  unfold specFirstFailure at h
  split_ifs at h
  all_goals simp_all

/-- Creating a reservation preserves the double-booking invariant: a
successful request passed the student-overlap check against every Active
reservation already stored. -/
theorem createRes_NoStudentOverlap (req : ReservationReq) (now : Nat) (nid : String)
    (s : Store) (h : NoStudentOverlap s.reservations) :
    NoStudentOverlap ((createReservation req now nid s).1).reservations := by
  rw [createReservation_run]
  cases hf : specFirstFailure req now s with
  | some e => exact h
  | none =>
    obtain ⟨-, -, -, -, -, -, -, h8, -⟩ := specFirstFailure_none hf
    unfold NoStudentOverlap
    rw [List.pairwise_append]
    refine ⟨h, List.pairwise_singleton _ _, ?_⟩
    intro r1 hr1 r2 hr2
    rw [List.mem_singleton] at hr2
    subst hr2
    intro h1 h2 h3
    unfold checkDoubleBooked studentHasOverlap at h8
    rw [List.any_eq_false] at h8
    have hone := h8 r1 hr1
    have hcond : ¬(r1.studentId ≠ req.studentId ∨ r1.status = ResStatus.cancelled) := by
      rintro (hc | hc)
      · exact hc h3
      · rw [h1] at hc
        exact ResStatus.noConfusion hc
    rw [if_neg hcond] at hone
    unfold resOverlap
    rw [isOverlapping_comm]
    simpa using hone

/-- Cancelling a reservation preserves the double-booking invariant. -/
theorem cancelRes_NoStudentOverlap (rid : String) (s : Store)
    (h : NoStudentOverlap s.reservations) :
    NoStudentOverlap ((cancelReservation rid s).1.reservations) := by
  unfold cancelReservation
  rcases hf : s.reservations.find? (fun r => r.id == rid) with _ | r <;> rw [hf]
  · exact h
  · exact pairwise_statusWeaken overlapFree_stable (cancelFirst_forall₂ _ _) h

/-- Creating a student never touches the reservation list. -/
theorem createStudent_reservations (i n e : String) (a : Bool) (s : Store) :
    (createStudent i n e a s).reservations = s.reservations := by
  unfold createStudent
  split_ifs <;> rfl

/-- Creating a canteen never touches the reservation list. -/
theorem createCanteen_reservations (i n l : String) (cap : Nat)
    (wh : List WorkingHour) (s : Store) :
    (createCanteen i n l cap wh s).reservations = s.reservations := by
  unfold createCanteen
  split_ifs <;> rfl

/-- Updating a canteen never touches the reservation list. -/
theorem updateCanteen_reservations (cid : String) (p : CanteenPatch) (s : Store) :
    (updateCanteen cid p s).reservations = s.reservations := by
  unfold updateCanteen
  split_ifs <;> rfl

/-- Deleting a canteen (with its cancellation cascade) preserves the
double-booking invariant. -/
theorem deleteCanteen_NoStudentOverlap (cid : String) (s : Store)
    (h : NoStudentOverlap s.reservations) :
    NoStudentOverlap ((deleteCanteen cid s).reservations) := by
  unfold deleteCanteen
  split_ifs
  · exact pairwise_statusWeaken overlapFree_stable (cancelCanteenRes_forall₂ _ _) h
  · exact h

/-- Every single operation preserves the double-booking invariant. -/
theorem applyOp_NoStudentOverlap (s : Store) (o : Op)
    (h : NoStudentOverlap s.reservations) :
    NoStudentOverlap ((applyOp s o).reservations) := by
  cases o with
  | createRes req now nid => exact createRes_NoStudentOverlap req now nid s h
  | cancelRes rid => exact cancelRes_NoStudentOverlap rid s h
  | addStudent i n e a =>
    unfold applyOp
    rw [createStudent_reservations]
    exact h
  | addCanteen i n l cap wh =>
    unfold applyOp
    rw [createCanteen_reservations]
    exact h
  | patchCanteen cid p =>
    unfold applyOp
    rw [updateCanteen_reservations]
    exact h
  | removeCanteen cid => exact deleteCanteen_NoStudentOverlap cid s h

/-- The double-booking invariant holds after any operation sequence. -/
theorem runOps_NoStudentOverlap (ops : List Op) :
    ∀ s : Store, NoStudentOverlap s.reservations →
      NoStudentOverlap ((runOps s ops).reservations) := by
  induction ops with
  | nil => exact fun s h => h
  | cons o ops ih => exact fun s h => ih _ (applyOp_NoStudentOverlap s o h)

/-- C4: after any sequence of operations from the empty store, any two
distinct Active reservations of the same student have non-overlapping
half-open intervals, across all canteens.  (Stated for arbitrary operation
sequences, which subsumes the claim's create/cancel sequences.) -/
theorem student_never_double_booked (ops : List Op) (i j : Nat)
    (hi : i < (runOps Store.empty ops).reservations.length)
    (hj : j < (runOps Store.empty ops).reservations.length)
    (hij : i ≠ j)
    (hai : ((runOps Store.empty ops).reservations.getD i dummyRes).status = .active)
    (haj : ((runOps Store.empty ops).reservations.getD j dummyRes).status = .active)
    (hsid : ((runOps Store.empty ops).reservations.getD i dummyRes).studentId =
            ((runOps Store.empty ops).reservations.getD j dummyRes).studentId) :
    resOverlap ((runOps Store.empty ops).reservations.getD i dummyRes)
      ((runOps Store.empty ops).reservations.getD j dummyRes) = false := by
  have hp : NoStudentOverlap (runOps Store.empty ops).reservations :=
    runOps_NoStudentOverlap ops Store.empty List.Pairwise.nil
  unfold NoStudentOverlap at hp
  rw [List.pairwise_iff_getElem] at hp
  have hgi : (runOps Store.empty ops).reservations.getD i dummyRes =
      (runOps Store.empty ops).reservations[i] := by
    rw [List.getD_eq_getElem?_getD, List.getElem?_eq_getElem hi]
    rfl
  have hgj : (runOps Store.empty ops).reservations.getD j dummyRes =
      (runOps Store.empty ops).reservations[j] := by
    rw [List.getD_eq_getElem?_getD, List.getElem?_eq_getElem hj]
    rfl
  simp only [hgi, hgj] at hai haj hsid ⊢
  rcases Nat.lt_or_ge i j with hlt | hge
  · exact hp i j hi hj hlt hai haj hsid
  · have hlt : j < i := by omega
    have hsym := hp j i hj hi hlt haj hai hsid.symm
    unfold resOverlap at hsym ⊢
    rw [isOverlapping_comm]
    exact hsym

/-- Witness for C4 at a concrete run with two Active same-student
reservations. -/
theorem student_never_double_booked_witness :
    resOverlap ((runOps Store.empty ops4).reservations.getD 0 dummyRes)
      ((runOps Store.empty ops4).reservations.getD 1 dummyRes) = false :=
  student_never_double_booked ops4 0 1 (by decide) (by decide) (by decide)
    (by decide) (by decide) (by decide)

/-- Unfolding of `activeContains` into its three propositional parts. -/
theorem activeContains_iff {cid : String} {t : Nat} {r : Reservation} :
    activeContains cid t r = true ↔
      r.canteenId = cid ∧ r.status = .active ∧
      ∃ a, resStart r = some a ∧ a ≤ t ∧ t < a + r.duration := by
  unfold activeContains
  cases hs : resStart r with
  | none => simp [hs]
  | some a =>
    simp [hs, and_assoc]

/-- Status weakening never increases the count of Active reservations. -/
theorem activeAt_weaken {l l' : List Reservation} (hf : List.Forall₂ statusWeaken l l')
    (cid : String) (t : Nat) : activeAt l' cid t ≤ activeAt l cid t := by
  induction hf with
  | nil => exact Nat.le_refl _
  | cons hab htail ih =>
    rename_i a b l1 l2
    unfold activeAt at ih ⊢
    rw [List.countP_cons, List.countP_cons]
    rcases hab with rfl | rfl
    · exact Nat.add_le_add ih (Nat.le_refl _)
    · have hz : activeContains cid t { a with status := ResStatus.cancelled } = false := by
        simp [activeContains]
      simp only [hz, Bool.false_eq_true, if_false]
      exact Nat.le_trans ih (Nat.le_add_right _ _)

/-- `StoreInv` only looks at the canteens and the reservations. -/
theorem StoreInv_of_eq {s s' : Store} (hc : s'.canteens = s.canteens)
    (hr : s'.reservations = s.reservations) (h : StoreInv s) : StoreInv s' := by
  obtain ⟨h1, h2, h3⟩ := h
  refine ⟨by rw [hc]; exact h1, ?_, ?_⟩
  · unfold ActiveRefs
    rw [hc, hr]
    exact h2
  · unfold CapacityInv
    rw [hc, hr]
    exact h3

/-- Creating a student never touches the canteen list. -/
theorem createStudent_canteens (i n e : String) (a : Bool) (s : Store) :
    (createStudent i n e a s).canteens = s.canteens := by
  unfold createStudent
  split_ifs <;> rfl

/-- Creating a reservation never touches the canteen list. -/
theorem createRes_canteens (req : ReservationReq) (now : Nat) (nid : String) (s : Store) :
    (createReservation req now nid s).1.canteens = s.canteens := by
  rw [createReservation_run]
  cases specFirstFailure req now s <;> rfl

/-- Deleting a canteen yields a sublist of the canteen list. -/
theorem deleteFirst_sublist (l : List Canteen) (cid : String) :
    List.Sublist (deleteFirst l cid) l := by
  induction l with
  | nil => exact List.Sublist.refl _
  | cons c cs ih =>
    unfold deleteFirst
    by_cases h : (c.id == cid) = true
    · rw [if_pos h]
      exact List.sublist_cons_self c cs
    · rw [if_neg h]
      exact ih.cons₂ c

/-- A canteen with a different id survives the deletion. -/
theorem mem_deleteFirst_of_ne {l : List Canteen} {cid : String} {c : Canteen}
    (hc : c ∈ l) (hne : c.id ≠ cid) : c ∈ deleteFirst l cid := by
  induction l with
  | nil => cases hc
  | cons a as ih =>
    unfold deleteFirst
    by_cases h : (a.id == cid) = true
    · rw [if_pos h]
      rcases List.mem_cons.mp hc with rfl | h2
      · exact absurd (by simpa using h) hne
      · exact h2
    · rw [if_neg h]
      rcases List.mem_cons.mp hc with rfl | h2
      · exact List.mem_cons_self _ _
      · exact List.mem_cons_of_mem _ (ih h2)

/-- An id-preserving patch leaves the id sequence unchanged. -/
theorem patchFirst_map_id {l : List Canteen} {cid : String} {p : CanteenPatch}
    (hid : p.id = none) :
    (patchFirst l cid p).map Canteen.id = l.map Canteen.id := by
  induction l with
  | nil => rfl
  | cons c cs ih =>
    unfold patchFirst
    by_cases h : (c.id == cid) = true
    · rw [if_pos h]
      simp [applyPatch, hid]
    · rw [if_neg h]
      simp only [List.map_cons]
      rw [ih]

/-- A canteen of the patched list is an untouched old one or the patched
version of an old one with the targeted id. -/
theorem mem_patchFirst {l : List Canteen} {cid : String} {p : CanteenPatch} {c' : Canteen}
    (h : c' ∈ patchFirst l cid p) :
    c' ∈ l ∨ ∃ c ∈ l, (c.id == cid) = true ∧ c' = applyPatch c p := by
  induction l with
  | nil => cases h
  | cons a as ih =>
    unfold patchFirst at h
    by_cases ha : (a.id == cid) = true
    · rw [if_pos ha] at h
      rcases List.mem_cons.mp h with rfl | h2
      · exact Or.inr ⟨a, List.mem_cons_self _ _, ha, rfl⟩
      · exact Or.inl (List.mem_cons_of_mem _ h2)
    · rw [if_neg ha] at h
      rcases List.mem_cons.mp h with rfl | h2
      · exact Or.inl (List.mem_cons_self _ _)
      · rcases ih h2 with h3 | ⟨c, hc, hcc, rfl⟩
        · exact Or.inl (List.mem_cons_of_mem _ h3)
        · exact Or.inr ⟨c, List.mem_cons_of_mem _ hc, hcc, rfl⟩

/-- Under an id-preserving patch, every old id is still present. -/
theorem patchFirst_id_mem {l : List Canteen} {cid : String} {p : CanteenPatch}
    (hid : p.id = none) {c : Canteen} (hc : c ∈ l) :
    ∃ c' ∈ patchFirst l cid p, c'.id = c.id := by
  induction l with
  | nil => cases hc
  | cons a as ih =>
    unfold patchFirst
    by_cases h : (a.id == cid) = true
    · rw [if_pos h]
      rcases List.mem_cons.mp hc with rfl | h2
      · exact ⟨applyPatch c p, List.mem_cons_self _ _, by simp [applyPatch, hid]⟩
      · exact ⟨c, List.mem_cons_of_mem _ h2, rfl⟩
    · rw [if_neg h]
      rcases List.mem_cons.mp hc with rfl | h2
      · exact ⟨c, List.mem_cons_self _ _, rfl⟩
      · obtain ⟨c', hc', he⟩ := ih h2
        exact ⟨c', List.mem_cons_of_mem _ hc', he⟩

/-- Creating a reservation preserves the invariant: a successful request
passed the capacity check, which counts every Active reservation of the
canteen overlapping the new interval — and any reservation containing an
instant of the new interval overlaps it. -/
theorem createRes_StoreInv (req : ReservationReq) (now : Nat) (nid : String)
    (s : Store) (h : StoreInv s) : StoreInv ((createReservation req now nid s).1) := by
  rw [createReservation_run]
  cases hf : specFirstFailure req now s with
  | some e => exact h
  | none =>
    obtain ⟨hnodup, hrefs, hcap⟩ := h
    obtain ⟨-, -, -, -, -, h6, -, -, h9⟩ := specFirstFailure_none hf
    obtain ⟨c0, hc0⟩ : ∃ c0, s.canteens.find? (fun c => c.id == req.canteenId) = some c0 := by
      unfold checkNoCanteen at h6
      cases hfc : s.canteens.find? (fun c => c.id == req.canteenId) with
      | none => rw [hfc] at h6; simp at h6
      | some c0 => exact ⟨c0, rfl⟩
    have hc0id : c0.id = req.canteenId := by
      have h5 := List.find?_some hc0
      simpa using h5
    have hc0mem : c0 ∈ s.canteens := List.mem_of_find?_eq_some hc0
    refine ⟨hnodup, ?_, ?_⟩
    · intro r hr hact
      rcases List.mem_append.mp hr with hr | hr
      · exact hrefs r hr hact
      · rw [List.mem_singleton] at hr
        subst hr
        exact ⟨c0, hc0mem, hc0id⟩
    · intro c' hc' t
      show List.countP (activeContains c'.id t) (s.reservations ++ [newRes req nid]) ≤ c'.capacity
      rw [List.countP_append]
      by_cases hnew : activeContains c'.id t (newRes req nid) = true
      · obtain ⟨hb1, hb2, na, hna, hna1, hna2⟩ := activeContains_iff.mp hnew
        simp only [newRes] at hb1 hna2
        have hcid : c'.id = req.canteenId := hb1.symm
        have hceq : c' = c0 :=
          List.inj_on_of_nodup_map hnodup hc' hc0mem (by rw [hcid, hc0id])
        subst hceq
        unfold checkCapacity at h9
        rw [hc0] at h9
        rw [decide_eq_false_iff_not] at h9
        have hlen := Nat.lt_of_not_le h9
        have hmono : List.countP (activeContains c'.id t) s.reservations ≤
            (concurrentReservations s.reservations req.canteenId
              (parseDateTime req.date req.time)
              (addMin (parseDateTime req.date req.time) req.duration)).length := by
          unfold concurrentReservations
          rw [← List.countP_eq_length_filter]
          apply List.countP_mono_left
          intro r hr hpr
          obtain ⟨hr1, hr2, ar, har, har1, har2⟩ := activeContains_iff.mp hpr
          have hcond : ¬(r.canteenId ≠ req.canteenId ∨ r.status = ResStatus.cancelled) := by
            rintro (hc | hc)
            · exact hc (by rw [hr1, hcid])
            · rw [hr2] at hc
              exact ResStatus.noConfusion hc
          rw [if_neg hcond]
          have hstart : parseDateTime req.date req.time = some na := hna
          rw [hstart]
          unfold resEnd
          rw [har]
          unfold addMin isOverlapping ltI
          simp only [Option.map_some']
          rw [Bool.and_eq_true, decide_eq_true_iff, decide_eq_true_iff]
          constructor <;> omega
        have hone : List.countP (activeContains c'.id t) [newRes req nid] = 1 := by
          simp [hnew]
        rw [hone]
        omega
      · have hf2 : activeContains c'.id t (newRes req nid) = false := by
          simpa using hnew
        have hz : List.countP (activeContains c'.id t) [newRes req nid] = 0 := by
          simp [hf2]
        rw [hz]
        simpa using hcap c' hc' t

/-- Cancelling a reservation preserves the invariant. -/
theorem cancelRes_StoreInv (rid : String) (s : Store) (h : StoreInv s) :
    StoreInv ((cancelReservation rid s).1) := by
  obtain ⟨h1, h2, h3⟩ := h
  unfold cancelReservation
  rcases hf : s.reservations.find? (fun r => r.id == rid) with _ | r <;> rw [hf]
  · exact ⟨h1, h2, h3⟩
  · refine ⟨h1, ?_, ?_⟩
    · intro r' hr' hact
      obtain ⟨x, hx, hxy⟩ := forall₂_mem_right (cancelFirst_forall₂ s.reservations rid) hr'
      rcases hxy with rfl | rfl
      · exact h2 _ hx hact
      · exact absurd hact (by simp)
    · intro c hc t
      exact Nat.le_trans (activeAt_weaken (cancelFirst_forall₂ _ _) c.id t) (h3 c hc t)

/-- Deleting a canteen preserves the invariant: the cascade cancels exactly
its Active reservations. -/
theorem deleteCanteen_StoreInv (cid : String) (s : Store) (h : StoreInv s) :
    StoreInv (deleteCanteen cid s) := by
  obtain ⟨h1, h2, h3⟩ := h
  unfold deleteCanteen
  split_ifs with hany
  · refine ⟨?_, ?_, ?_⟩
    · exact List.Nodup.sublist ((deleteFirst_sublist s.canteens cid).map Canteen.id) h1
    · intro r' hr' hact
      unfold cancelCanteenRes at hr'
      obtain ⟨x, hx, hfx⟩ := List.mem_map.mp hr'
      subst hfx
      by_cases hcnd : (x.canteenId = cid ∧ x.status = ResStatus.active)
      · rw [if_pos hcnd] at hact
        exact absurd hact (by simp)
      · rw [if_neg hcnd] at hact ⊢
        obtain ⟨c, hc, hcid⟩ := h2 x hx hact
        have hne : c.id ≠ cid := by
          rw [hcid]
          intro hq
          exact hcnd ⟨hq, hact⟩
        exact ⟨c, mem_deleteFirst_of_ne hc hne, hcid⟩
    · intro c hc t
      have hsub : c ∈ s.canteens := (deleteFirst_sublist s.canteens cid).subset hc
      exact Nat.le_trans (activeAt_weaken (cancelCanteenRes_forall₂ _ _) c.id t)
        (h3 c hsub t)
  · exact ⟨h1, h2, h3⟩

/-- An id-preserving, capacity-nondecreasing update preserves the
invariant. -/
theorem updateCanteen_StoreInv (cid : String) (p : CanteenPatch) (s : Store)
    (hp1 : p.id = none)
    (hp2 : ∀ c ∈ s.canteens, c.id = cid → ∀ k, p.capacity = some k → c.capacity ≤ k)
    (h : StoreInv s) : StoreInv (updateCanteen cid p s) := by
  obtain ⟨h1, h2, h3⟩ := h
  unfold updateCanteen
  split_ifs with hany
  · refine ⟨?_, ?_, ?_⟩
    · show ((patchFirst s.canteens cid p).map Canteen.id).Nodup
      rw [patchFirst_map_id hp1]
      exact h1
    · intro r hr hact
      obtain ⟨c, hcm, hcid⟩ := h2 r hr hact
      obtain ⟨c', hc', he⟩ := patchFirst_id_mem hp1 hcm
      exact ⟨c', hc', by rw [he, hcid]⟩
    · intro c' hc' t
      rcases mem_patchFirst hc' with hm | ⟨c, hcm, hcc, rfl⟩
      · exact h3 c' hm t
      · have hid : (applyPatch c p).id = c.id := by simp [applyPatch, hp1]
        rw [hid]
        have hbase := h3 c hcm t
        cases hk : p.capacity with
        | none =>
          have hcc2 : (applyPatch c p).capacity = c.capacity := by simp [applyPatch, hk]
          rw [hcc2]
          exact hbase
        | some k =>
          have hle := hp2 c hcm (by simpa using hcc) k hk
          have hcc2 : (applyPatch c p).capacity = k := by simp [applyPatch, hk]
          rw [hcc2]
          exact Nat.le_trans hbase hle
  · exact ⟨h1, h2, h3⟩

/-- Creating a canteen with a fresh id preserves the invariant: no Active
reservation can reference the fresh id. -/
theorem createCanteen_StoreInv (nid n loc : String) (cap : Nat)
    (wh : List WorkingHour) (s : Store) (hfresh : ∀ c ∈ s.canteens, c.id ≠ nid)
    (h : StoreInv s) : StoreInv (createCanteen nid n loc cap wh s) := by
  obtain ⟨h1, h2, h3⟩ := h
  unfold createCanteen
  split_ifs with hmiss
  · exact ⟨h1, h2, h3⟩
  · refine ⟨?_, ?_, ?_⟩
    · rw [List.map_append, List.nodup_append]
      refine ⟨h1, by simp, ?_⟩
      intro a ha hb
      simp only [List.map_cons, List.map_nil, List.mem_singleton] at hb
      obtain ⟨c, hcm, rfl⟩ := List.mem_map.mp ha
      exact hfresh c hcm hb
    · intro r hr hact
      obtain ⟨c, hcm, hcid⟩ := h2 r hr hact
      exact ⟨c, List.mem_append_left _ hcm, hcid⟩
    · intro c' hc' t
      rcases List.mem_append.mp hc' with hm | hm
      · exact h3 c' hm t
      · rw [List.mem_singleton] at hm
        subst hm
        show List.countP (activeContains nid t) s.reservations ≤ cap
        have hz : List.countP (activeContains nid t) s.reservations = 0 := by
          rw [List.countP_eq_zero]
          intro r hr hcont
          obtain ⟨hr1, hr2, -⟩ := activeContains_iff.mp hcont
          obtain ⟨c, hcm, hcid⟩ := h2 r hr hr2
          exact hfresh c hcm (by rw [hcid, hr1])
        rw [hz]
        exact Nat.zero_le _

/-- Any single operation satisfying its side condition preserves the
invariant. -/
theorem applyOp_StoreInv (s : Store) (o : Op) (hcond : OpCond s o) (h : StoreInv s) :
    StoreInv (applyOp s o) := by
  cases o with
  | createRes req now nid => exact createRes_StoreInv req now nid s h
  | cancelRes rid => exact cancelRes_StoreInv rid s h
  | addStudent i n e a =>
    exact StoreInv_of_eq (createStudent_canteens i n e a s)
      (createStudent_reservations i n e a s) h
  | addCanteen nid n loc cap wh => exact createCanteen_StoreInv nid n loc cap wh s hcond h
  | patchCanteen cid p => exact updateCanteen_StoreInv cid p s hcond.1 hcond.2 h
  | removeCanteen cid => exact deleteCanteen_StoreInv cid s h

/-- The invariant is preserved along any conditioned operation sequence. -/
theorem runOps_StoreInv (ops : List Op) :
    ∀ s : Store, OpsOK s ops → StoreInv s → StoreInv (runOps s ops) := by
  induction ops with
  | nil => exact fun s _ h => h
  | cons o ops ih =>
    intro s hok h
    cases hok with
    | cons hcond htail => exact ih _ htail (applyOp_StoreInv s o hcond h)

/-- C3 amended: starting from the empty store, after any sequence of
operations in which created canteen ids are fresh and every canteen update
preserves the id and never decreases the capacity, the number of Active
reservations of a canteen containing any instant never exceeds that
canteen's capacity. -/
theorem capacity_never_exceeded (ops : List Op) (hok : OpsOK Store.empty ops) :
    ∀ c ∈ (runOps Store.empty ops).canteens, ∀ t,
      activeAt (runOps Store.empty ops).reservations c.id t ≤ c.capacity := by
  have h0 : StoreInv Store.empty :=
    ⟨List.nodup_nil, fun r hr => absurd hr (List.not_mem_nil r),
     fun c hc => absurd hc (List.not_mem_nil c)⟩
  exact (runOps_StoreInv ops Store.empty hok h0).2.2

/-- C3 counterexample: after `breakOps` the canteen `c1` has capacity 0 but
one Active reservation containing the instant 07:00 of 2025-12-01, so the
claimed invariant fails for unrestricted update operations. -/
theorem capacity_claim_counterexample :
    ∃ c ∈ (runOps Store.empty breakOps).canteens, ∃ t,
      c.capacity < activeAt (runOps Store.empty breakOps).reservations c.id t :=
  ⟨⟨"c1", "Menza", "NS", 0, [⟨"breakfast", "07:00", "10:00"⟩]⟩, by decide,
   dayNumber 2025 12 1 * 1440 + 420, by decide⟩

/-- C3 amended: starting from the empty store, after any sequence of
operations in which created canteen ids are fresh and every canteen update
preserves the id and never decreases the capacity, the number of Active
reservations of a canteen containing any instant never exceeds that
canteen's capacity. -/
theorem capacity_never_exceeded_witness :
    activeAt (runOps Store.empty goodOps).reservations "c1"
      (dayNumber 2025 12 1 * 1440 + 420) ≤ 1 :=
  capacity_never_exceeded goodOps
    (OpsOK.cons trivial (OpsOK.cons (by unfold OpCond; decide)
      (OpsOK.cons trivial (OpsOK.nil _))))
    ⟨"c1", "Menza", "NS", 1, [⟨"breakfast", "07:00", "10:00"⟩]⟩ (by decide)
    (dayNumber 2025 12 1 * 1440 + 420)


example : parseDate "2025-12-01" = some (dayNumber 2025 12 1) := by decide
example : parseDate "2025-13-01" = none := by decide
example : parseDate "2025-02-29" = none := by decide
example : parseDate "2024-02-29" = some (dayNumber 2024 2 29) := by decide
example : parseTimeHM "07:30" = some 450 := by decide
example : parseTimeHM "24:30" = none := by decide
example : timeMinJS "99:15" = some 5955 := by decide
example : timeMinJS "abc" = none := by decide
example : dayNumber 2025 12 1 = dayNumber 2025 11 30 + 1 := by decide
example : dayNumber 2026 1 1 = dayNumber 2025 12 31 + 1 := by decide
